import Mathlib

/-!
Verification of the handle layer of the `crossbeam` channel library
(`src/channel.rs`): the `Channel` operation contract with its derived
default methods, the shared `Queue` state (two `usize` reference counters
plus a three-way `Flavor` union), the `Sender`/`Receiver` handle lifecycle
(construction, clone, drop-with-close), and the `unbounded`/`bounded`
constructors.

Counters are `usize` atomics in the source; we embed them as `Nat` below
`2 ^ 64` with explicitly wrapping `fetch_add(1)`/`fetch_sub(1)` (shown equal
to the modular `% 2 ^ 64` form on the `usize` domain). Atomic read-modify-write operations execute in a single total
order, so concurrent histories of clone/drop are embedded as sequences of
events (`Ev`) applied to the shared state.
-/

namespace Crossbeam

/-- The modulus of the `usize` type on the 64-bit targets the crate supports,
written as a decimal literal: `2 ^ 64` (see `USIZE_eq_two_pow`). -/
def USIZE : Nat := 18446744073709551616

/-- Wrapping `usize` increment, `fetch_add(1)` on a counter value below
`USIZE`: the top value wraps to `0`, all others step up by one. Agrees with
the modular form on the whole `usize` domain (see `wrapAdd1_eq_mod`). -/
def wrapAdd1 (n : Nat) : Nat := if n = USIZE - 1 then 0 else n + 1

/-- Wrapping `usize` decrement, `fetch_sub(1)` on a counter value below
`USIZE`: `0` wraps to `USIZE - 1`, all others step down by one. Agrees with
the modular form on the whole `usize` domain (see `wrapSub1_eq_mod`). -/
def wrapSub1 (n : Nat) : Nat := if n = 0 then USIZE - 1 else n - 1

/-- The three-way tagged union `Flavor<T>` from the source: `Async(async::Queue)`,
`Sync(sync::Queue)` (built `with_capacity(size)`, recorded here), and
`Zero(zero::Queue)`. The queue engines themselves are external collaborators;
only the tag and the bounded capacity are relevant to the handle layer. -/
inductive Flavor where
  | Async : Flavor
  | Sync : Nat → Flavor
  | Zero : Flavor
deriving DecidableEq

/-- The shared `Queue<T>` state: `senders`/`receivers` are `AtomicUsize`
reference counters; `flavor` is fixed at construction. -/
structure Queue where
  senders : Nat
  receivers : Nat
  flavor : Flavor
deriving DecidableEq

/-- Effect of `Sender::new` on the shared state: `q.senders.fetch_add(1, SeqCst)`. -/
def Sender.newQ (q : Queue) : Queue :=
  { q with senders := wrapAdd1 q.senders }

/-- Effect of `Receiver::new` on the shared state: `q.receivers.fetch_add(1, SeqCst)`. -/
def Receiver.newQ (q : Queue) : Queue :=
  { q with receivers := wrapAdd1 q.receivers }

/-- Effect of `Drop for Sender`: `fetch_sub(1, SeqCst)` on the sender counter;
the second component records whether `close()` was invoked on the flavor,
namely exactly when the pre-decrement value was `1`. -/
def Sender.dropQ (q : Queue) : Queue × Bool :=
  ({ q with senders := wrapSub1 q.senders }, q.senders == 1)

/-- Effect of `Drop for Receiver`, symmetric to `Sender.dropQ`. -/
def Receiver.dropQ (q : Queue) : Queue × Bool :=
  ({ q with receivers := wrapSub1 q.receivers }, q.receivers == 1)

/-- The freshly allocated state built inside `unbounded()` before any handle
is constructed: both counters `AtomicUsize::new(0)`, flavor `Async`. -/
def unboundedInit : Queue :=
  { senders := 0, receivers := 0, flavor := Flavor.Async }

/-- The shared state after `unbounded()` returns: the fresh state threaded
through `Sender::new` and `Receiver::new`. -/
def unbounded : Queue :=
  Receiver.newQ (Sender.newQ unboundedInit)

/-- The freshly allocated state built inside `bounded(size)`: both counters
zero, flavor `Zero` when `size == 0`, otherwise `Sync` with that capacity. -/
def boundedInit (size : Nat) : Queue :=
  { senders := 0, receivers := 0,
    flavor := if size == 0 then Flavor.Zero else Flavor.Sync size }

/-- The shared state after `bounded(size)` returns. -/
def bounded (size : Nat) : Queue :=
  Receiver.newQ (Sender.newQ (boundedInit size))

/-- A `Sender<T>` handle: the `Arc<Queue<T>>` pointer is embedded as the
identity `ref` of the allocation it points at. -/
structure SenderH where
  ref : Nat
deriving DecidableEq

/-- A `Receiver<T>` handle, symmetric to `SenderH`. -/
structure ReceiverH where
  ref : Nat
deriving DecidableEq

/-- `Clone for Sender`: `Sender::new(self.0.clone())`. `Arc::clone` copies the
pointer (same allocation identity) and `Sender::new` bumps the sender counter. -/
def Sender.cloneH (h : SenderH) (q : Queue) : SenderH × Queue :=
  ({ ref := h.ref }, Sender.newQ q)

/-- `Clone for Receiver`: `Receiver::new(self.0.clone())`. -/
def Receiver.cloneH (h : ReceiverH) (q : Queue) : ReceiverH × Queue :=
  ({ ref := h.ref }, Receiver.newQ q)

/-- `Receiver::as_channel`: borrows the selected flavor as an object-safe
`&Channel<T>`. The `Zero` arm is `unimplemented!()`, i.e. a panic, embedded
as `none`; the other arms return the borrowed flavor. -/
def Receiver.asChannel (q : Queue) : Option Flavor :=
  match q.flavor with
  | Flavor.Async => some Flavor.Async
  | Flavor.Sync n => some (Flavor.Sync n)
  | Flavor.Zero => none

/-- The error type `SendTimeoutError<T>` of `send_until`/`send_timeout`. -/
inductive SendTimeoutError (T : Type) where
  | Timeout : T → SendTimeoutError T
  | Disconnected : T → SendTimeoutError T
deriving DecidableEq

/-- The error type `SendError<T>` of `send`, carrying the undelivered value. -/
inductive SendError (T : Type) where
  | mk : T → SendError T
deriving DecidableEq

/-- The error type `RecvTimeoutError` of `recv_until`/`recv_timeout`. -/
inductive RecvTimeoutError where
  | Timeout : RecvTimeoutError
  | Disconnected : RecvTimeoutError
deriving DecidableEq

/-- The value-less error type `RecvError` of `recv`. -/
inductive RecvError where
  | mk : RecvError
deriving DecidableEq

/-- Default method `Channel::send` over an arbitrary flavor-provided
`send_until` (`Instant` embedded as `Nat`): `send_until(value, None)` with
both `Timeout(v)` and `Disconnected(v)` collapsed into `SendError(v)`. -/
def Channel.send {T : Type} (su : T → Option Nat → Except (SendTimeoutError T) Unit)
    (value : T) : Except (SendError T) Unit :=
  match su value none with
  | Except.ok _ => Except.ok ()
  | Except.error (SendTimeoutError.Disconnected v) => Except.error (SendError.mk v)
  | Except.error (SendTimeoutError.Timeout v) => Except.error (SendError.mk v)

/-- Default method `Channel::send_timeout`: `send_until(value, Some(Instant::now() + dur))`. -/
def Channel.sendTimeout {T : Type} (su : T → Option Nat → Except (SendTimeoutError T) Unit)
    (now : Nat) (value : T) (dur : Nat) : Except (SendTimeoutError T) Unit :=
  su value (some (now + dur))

/-- Default method `Channel::recv` over an arbitrary flavor-provided
`recv_until`: `if let Ok(v) = recv_until(None) then Ok(v) else Err(RecvError)`. -/
def Channel.recv {T : Type} (ru : Option Nat → Except RecvTimeoutError T) :
    Except RecvError T :=
  match ru none with
  | Except.ok v => Except.ok v
  | Except.error _ => Except.error RecvError.mk

/-- Default method `Channel::recv_timeout`: `recv_until(Some(Instant::now() + dur))`. -/
def Channel.recvTimeout {T : Type} (ru : Option Nat → Except RecvTimeoutError T)
    (now dur : Nat) : Except RecvTimeoutError T :=
  ru (some (now + dur))

/-- A handle-lifecycle event on one channel: clone or drop of a `Sender` or
`Receiver` handle. Atomic counter updates are `SeqCst`, hence totally
ordered; a concurrent history is embedded as the sequence of its counter
updates in that order. -/
inductive Ev where
  | cloneS : Ev
  | dropS : Ev
  | cloneR : Ev
  | dropR : Ev
deriving DecidableEq

/-- Effect of one lifecycle event on the shared state, per the source. -/
def stepQ (q : Queue) : Ev → Queue
  | Ev.cloneS => Sender.newQ q
  | Ev.dropS => (Sender.dropQ q).1
  | Ev.cloneR => Receiver.newQ q
  | Ev.dropR => (Receiver.dropQ q).1

/-- The shared state after a sequence of lifecycle events. -/
def runQ (q : Queue) : List Ev → Queue
  | [] => q
  | e :: t => runQ (stepQ q e) t

/-- Specification-side count of currently-undropped handles
`(live senders, live receivers)` after one event. -/
def stepLive (l : Nat × Nat) : Ev → Nat × Nat
  | Ev.cloneS => (l.1 + 1, l.2)
  | Ev.dropS => (l.1 - 1, l.2)
  | Ev.cloneR => (l.1, l.2 + 1)
  | Ev.dropR => (l.1, l.2 - 1)

/-- Live-handle counts after a sequence of events. -/
def runLive (l : Nat × Nat) : List Ev → Nat × Nat
  | [] => l
  | e :: t => runLive (stepLive l e) t

/-- An event is well-formed at live counts `l` when it operates through an
existing handle: cloning or dropping requires a live handle of that class,
and the number of live handles stays below `2 ^ 64` (each handle occupies
at least one byte of a 64-bit address space). -/
def okEv (l : Nat × Nat) : Ev → Bool
  | Ev.cloneS => decide (1 ≤ l.1 ∧ l.1 + 1 < USIZE)
  | Ev.dropS => decide (1 ≤ l.1)
  | Ev.cloneR => decide (1 ≤ l.2 ∧ l.2 + 1 < USIZE)
  | Ev.dropR => decide (1 ≤ l.2)

/-- A sequence of events is well-formed from live counts `l` when every
event is well-formed at the counts it encounters. -/
def validFrom (l : Nat × Nat) : List Ev → Bool
  | [] => true
  | e :: t => okEv l e && validFrom (stepLive l e) t

/-- Number of `close()` invocations fired by sender drops along a trace. -/
def senderCloses (q : Queue) : List Ev → Nat
  | [] => 0
  | e :: t =>
    (match e with
     | Ev.dropS => if (Sender.dropQ q).2 then 1 else 0
     | _ => 0) + senderCloses (stepQ q e) t

/-- Number of `close()` invocations fired by receiver drops along a trace. -/
def receiverCloses (q : Queue) : List Ev → Nat
  | [] => 0
  | e :: t =>
    (match e with
     | Ev.dropR => if (Receiver.dropQ q).2 then 1 else 0
     | _ => 0) + receiverCloses (stepQ q e) t

/-- The declared return type of `Channel::is_empty` in the source: `usize`. -/
def ChannelIsEmptyRet : Type := Nat

/-- The declared return type of `Channel::is_full` in the source: `usize`. -/
def ChannelIsFullRet : Type := Nat

/-- The declared return type of `Sender::is_empty` in the source: `usize`. -/
def SenderIsEmptyRet : Type := Nat

/-- The declared return type of `Sender::is_full` in the source: `usize`. -/
def SenderIsFullRet : Type := Nat

/-- The declared return type of `Receiver::is_empty` in the source: `usize`. -/
def ReceiverIsEmptyRet : Type := Nat

/-- The declared return type of `Receiver::is_full` in the source: `usize`. -/
def ReceiverIsFullRet : Type := Nat

lemma USIZE_eq_two_pow : USIZE = 2 ^ 64 := by norm_num [USIZE]

lemma usize_pos : 0 < USIZE := by norm_num [USIZE]

/-- The wrapping increment agrees with the modular form on the `usize` domain. -/
lemma wrapAdd1_eq_mod (n : Nat) (h : n < USIZE) : wrapAdd1 n = (n + 1) % USIZE := by
  simp only [wrapAdd1, USIZE] at h ⊢
  split <;> omega

/-- The wrapping decrement agrees with the modular form on the `usize` domain. -/
lemma wrapSub1_eq_mod (n : Nat) (h : n < USIZE) :
    wrapSub1 n = (n + (USIZE - 1)) % USIZE := by
  simp only [wrapSub1, USIZE] at h ⊢
  split <;> omega

/-- Wrapping `fetch_sub(1)` is exact subtraction on a nonzero counter. -/
lemma wrapSub1_pos (n : Nat) (h1 : 1 ≤ n) : wrapSub1 n = n - 1 := by
  unfold wrapSub1
  split <;> omega

/-- Wrapping `fetch_add(1)` is exact addition while the counter stays below `2^64`. -/
lemma wrapAdd1_lt (n : Nat) (h : n + 1 < USIZE) : wrapAdd1 n = n + 1 := by
  simp only [wrapAdd1, USIZE] at h ⊢
  split <;> omega

/-- C1: dropping a `Sender` (resp. `Receiver`) decrements its class's counter,
and `close()` is invoked on the flavor exactly when the pre-decrement counter
was `1`; dropping a non-last handle fires no close. -/
theorem drop_decrements_and_closes_iff_last (q : Queue) :
    ((Sender.dropQ q).2 = true ↔ q.senders = 1)
    ∧ ((Receiver.dropQ q).2 = true ↔ q.receivers = 1)
    ∧ (1 ≤ q.senders → (Sender.dropQ q).1.senders = q.senders - 1)
    ∧ (1 ≤ q.receivers → (Receiver.dropQ q).1.receivers = q.receivers - 1) := by
  refine ⟨?_, ?_, ?_, ?_⟩
  · simp [Sender.dropQ]
  · simp [Receiver.dropQ]
  · intro h1
    simp [Sender.dropQ, wrapSub1_pos q.senders h1]
  · intro h1
    simp [Receiver.dropQ, wrapSub1_pos q.receivers h1]

theorem drop_decrements_and_closes_iff_last_witness :
    (Sender.dropQ unbounded).2 = true ∧ (Sender.dropQ unbounded).1.senders = 0 := by
  constructor
  · exact (drop_decrements_and_closes_iff_last unbounded).1.mpr (by decide)
  · have h := (drop_decrements_and_closes_iff_last unbounded).2.2.1 (by decide)
    rw [h]
    decide

/-- C3: `bounded(0)` selects the rendezvous (`Zero`) flavor, `bounded(n)` with
`n ≠ 0` selects the mutex-backed `Sync` flavor with capacity `n`, `unbounded()`
selects the `Async` flavor, and no lifecycle operation ever changes the flavor. -/
theorem flavor_selection_fixed :
    (bounded 0).flavor = Flavor.Zero
    ∧ (∀ n : Nat, n ≠ 0 → (bounded n).flavor = Flavor.Sync n)
    ∧ unbounded.flavor = Flavor.Async
    ∧ (∀ (q : Queue) (t : List Ev), (runQ q t).flavor = q.flavor) := by
  have hstep : ∀ (q : Queue) (e : Ev), (stepQ q e).flavor = q.flavor := by
    intro q e
    cases e <;> rfl
  refine ⟨rfl, ?_, rfl, ?_⟩
  · intro n hn
    simp [bounded, boundedInit, Receiver.newQ, Sender.newQ, hn]
  · intro q t
    induction t generalizing q with
    | nil => rfl
    | cons e t ih => rw [runQ, ih, hstep]

theorem flavor_selection_fixed_witness :
    (bounded 3).flavor = Flavor.Sync 3 :=
  flavor_selection_fixed.2.1 3 (by decide)

/-- C4: both constructors build a fresh state with both counters at zero;
`Sender::new` increments only the sender counter and `Receiver::new` only the
receiver counter; after either constructor returns, both counters equal one. -/
theorem constructors_register_one_each :
    unboundedInit.senders = 0 ∧ unboundedInit.receivers = 0
    ∧ (∀ n : Nat, (boundedInit n).senders = 0 ∧ (boundedInit n).receivers = 0)
    ∧ (∀ q : Queue, (Sender.newQ q).senders = wrapAdd1 q.senders
        ∧ (Sender.newQ q).receivers = q.receivers)
    ∧ (∀ q : Queue, (Receiver.newQ q).receivers = wrapAdd1 q.receivers
        ∧ (Receiver.newQ q).senders = q.senders)
    ∧ unbounded.senders = 1 ∧ unbounded.receivers = 1
    ∧ (∀ n : Nat, (bounded n).senders = 1 ∧ (bounded n).receivers = 1) := by
  refine ⟨rfl, rfl, fun n => ⟨rfl, rfl⟩, fun q => ⟨rfl, rfl⟩, fun q => ⟨rfl, rfl⟩,
    by decide, by decide, fun n => ⟨?_, ?_⟩⟩
  · simp [bounded, boundedInit, Receiver.newQ, Sender.newQ, wrapAdd1, USIZE]
  · simp [bounded, boundedInit, Receiver.newQ, Sender.newQ, wrapAdd1, USIZE]

/-- C8: obtaining the object-safe `Channel` reference from a `Receiver` of a
zero-capacity channel panics (`unimplemented!`, embedded as `none`), while for
unbounded and nonzero bounded channels it returns the selected flavor. -/
theorem as_channel_zero_panics :
    (∀ q : Queue, q.flavor = Flavor.Zero → Receiver.asChannel q = none)
    ∧ Receiver.asChannel (bounded 0) = none
    ∧ Receiver.asChannel unbounded = some Flavor.Async
    ∧ (∀ n : Nat, n ≠ 0 → Receiver.asChannel (bounded n) = some (Flavor.Sync n)) := by
  refine ⟨?_, rfl, rfl, ?_⟩
  · intro q hq
    simp [Receiver.asChannel, hq]
  · intro n hn
    have hf : (bounded n).flavor = Flavor.Sync n := by
      simp [bounded, boundedInit, Receiver.newQ, Sender.newQ, hn]
    simp [Receiver.asChannel, hf]

theorem as_channel_zero_panics_witness :
    Receiver.asChannel (bounded 0) = none
    ∧ Receiver.asChannel (bounded 2) = some (Flavor.Sync 2) :=
  ⟨as_channel_zero_panics.1 (bounded 0) (by decide),
   as_channel_zero_panics.2.2.2 2 (by decide)⟩

/-- C9: cloning a `Sender` copies the `Arc` pointer (the clone references the
same shared allocation) and increments only the sender counter, leaving the
receiver counter and the flavor unchanged; symmetrically for `Receiver`. -/
theorem clone_bumps_only_own_class :
    (∀ (h : SenderH) (q : Queue),
      (Sender.cloneH h q).1.ref = h.ref
      ∧ (Sender.cloneH h q).2.senders = wrapAdd1 q.senders
      ∧ (q.senders + 1 < USIZE → (Sender.cloneH h q).2.senders = q.senders + 1)
      ∧ (Sender.cloneH h q).2.receivers = q.receivers
      ∧ (Sender.cloneH h q).2.flavor = q.flavor)
    ∧ (∀ (h : ReceiverH) (q : Queue),
      (Receiver.cloneH h q).1.ref = h.ref
      ∧ (Receiver.cloneH h q).2.receivers = wrapAdd1 q.receivers
      ∧ (q.receivers + 1 < USIZE → (Receiver.cloneH h q).2.receivers = q.receivers + 1)
      ∧ (Receiver.cloneH h q).2.senders = q.senders
      ∧ (Receiver.cloneH h q).2.flavor = q.flavor) := by
  constructor
  · intro h q
    refine ⟨rfl, rfl, ?_, rfl, rfl⟩
    intro hb
    simp [Sender.cloneH, Sender.newQ, wrapAdd1_lt q.senders hb]
  · intro h q
    refine ⟨rfl, rfl, ?_, rfl, rfl⟩
    intro hb
    simp [Receiver.cloneH, Receiver.newQ, wrapAdd1_lt q.receivers hb]

theorem clone_bumps_only_own_class_witness :
    (Sender.cloneH { ref := 7 } unbounded).1.ref = 7
    ∧ (Sender.cloneH { ref := 7 } unbounded).2.senders = 2 := by
  constructor
  · exact (clone_bumps_only_own_class.1 { ref := 7 } unbounded).1
  · have h := (clone_bumps_only_own_class.1 { ref := 7 } unbounded).2.2.1 (by decide)
    rw [h]
    decide

theorem constructors_register_one_each_witness :
    (bounded 4).senders = 1 ∧ (bounded 4).receivers = 1 :=
  constructors_register_one_each.2.2.2.2.2.2.2 4

/-- C5: for every flavor-provided `send_until`, the derived `send` equals
`send_until(value, None)` with both the `Timeout` and the `Disconnected`
error collapsed into `SendError` carrying the undelivered value back, and
the derived `send_timeout` equals `send_until(value, Some(now + dur))`. -/
theorem send_derived_from_send_until {T : Type}
    (su : T → Option Nat → Except (SendTimeoutError T) Unit)
    (v : T) (now dur : Nat) :
    (Channel.send su v = Except.ok () ↔ su v none = Except.ok ())
    ∧ (∀ w : T, su v none = Except.error (SendTimeoutError.Timeout w) →
        Channel.send su v = Except.error (SendError.mk w))
    ∧ (∀ w : T, su v none = Except.error (SendTimeoutError.Disconnected w) →
        Channel.send su v = Except.error (SendError.mk w))
    ∧ Channel.sendTimeout su now v dur = su v (some (now + dur)) := by
  refine ⟨?_, ?_, ?_, rfl⟩
  · unfold Channel.send
    cases h : su v none with
    | ok u => simp
    | error e => cases e <;> simp
  · intro w hw
    unfold Channel.send
    rw [hw]
  · intro w hw
    unfold Channel.send
    rw [hw]

theorem send_derived_from_send_until_witness :
    Channel.send (fun (v : Nat) (_ : Option Nat) =>
        Except.error (SendTimeoutError.Timeout v)) 5
      = Except.error (SendError.mk 5) :=
  (send_derived_from_send_until
    (fun (v : Nat) (_ : Option Nat) => Except.error (SendTimeoutError.Timeout v))
    5 0 0).2.1 5 rfl

/-- C10: for every flavor-provided `recv_until`, the derived `recv` returns
the received value unchanged on success and maps both failing outcomes of
`recv_until(None)` — `Timeout` as well as `Disconnected` — to the single
value-less `RecvError`. -/
theorem recv_collapses_every_failure {T : Type}
    (ru : Option Nat → Except RecvTimeoutError T) :
    (∀ v : T, Channel.recv ru = Except.ok v ↔ ru none = Except.ok v)
    ∧ (∀ e : RecvTimeoutError, ru none = Except.error e →
        Channel.recv ru = Except.error RecvError.mk) := by
  constructor
  · intro v
    unfold Channel.recv
    cases h : ru none with
    | ok w => simp
    | error e => simp
  · intro e he
    unfold Channel.recv
    rw [he]

theorem recv_collapses_every_failure_witness :
    Channel.recv (fun _ : Option Nat => (Except.error RecvTimeoutError.Timeout : Except RecvTimeoutError Nat))
      = Except.error RecvError.mk
    ∧ Channel.recv (fun _ : Option Nat => (Except.error RecvTimeoutError.Disconnected : Except RecvTimeoutError Nat))
      = Except.error RecvError.mk :=
  ⟨(recv_collapses_every_failure
      (fun _ : Option Nat => (Except.error RecvTimeoutError.Timeout : Except RecvTimeoutError Nat))).2
      RecvTimeoutError.Timeout rfl,
   (recv_collapses_every_failure
      (fun _ : Option Nat => (Except.error RecvTimeoutError.Disconnected : Except RecvTimeoutError Nat))).2
      RecvTimeoutError.Disconnected rfl⟩

/-- C7: the return types the source declares for `is_empty` and `is_full` on
the `Channel` trait and on the `Sender`/`Receiver` handles are all `usize`
(embedded as `Nat`), not the boolean type the specification requires. -/
theorem is_empty_is_full_return_usize_not_bool :
    ChannelIsEmptyRet = Nat ∧ ChannelIsFullRet = Nat
    ∧ SenderIsEmptyRet = Nat ∧ SenderIsFullRet = Nat
    ∧ ReceiverIsEmptyRet = Nat ∧ ReceiverIsFullRet = Nat
    ∧ ChannelIsEmptyRet ≠ Bool ∧ ChannelIsFullRet ≠ Bool
    ∧ SenderIsEmptyRet ≠ Bool ∧ SenderIsFullRet ≠ Bool
    ∧ ReceiverIsEmptyRet ≠ Bool ∧ ReceiverIsFullRet ≠ Bool := by
  have hnb : (Nat : Type) ≠ Bool := by
    intro h
    haveI : Finite Nat := by rw [h]; exact inferInstance
    exact not_finite Nat
  exact ⟨rfl, rfl, rfl, rfl, rfl, rfl, hnb, hnb, hnb, hnb, hnb, hnb⟩

theorem is_empty_is_full_return_usize_not_bool_witness :
    ChannelIsEmptyRet = Nat ∧ SenderIsEmptyRet = Nat :=
  ⟨is_empty_is_full_return_usize_not_bool.1,
   is_empty_is_full_return_usize_not_bool.2.2.1⟩

lemma runQ_append (a b : List Ev) : ∀ q : Queue, runQ q (a ++ b) = runQ (runQ q a) b := by
  induction a with
  | nil => intro q; rfl
  | cons e t ih =>
    intro q
    simp only [List.cons_append, runQ]
    exact ih (stepQ q e)

lemma runLive_append (a b : List Ev) :
    ∀ l : Nat × Nat, runLive l (a ++ b) = runLive (runLive l a) b := by
  induction a with
  | nil => intro l; rfl
  | cons e t ih =>
    intro l
    simp only [List.cons_append, runLive]
    exact ih (stepLive l e)

lemma validFrom_append (a b : List Ev) :
    ∀ l : Nat × Nat,
      validFrom l (a ++ b) = (validFrom l a && validFrom (runLive l a) b) := by
  induction a with
  | nil => intro l; simp [validFrom, runLive]
  | cons e t ih =>
    intro l
    simp only [List.cons_append, validFrom, runLive, List.append_eq, ih, Bool.and_assoc]

/-- Along a well-formed trace the shared counters track the live-handle counts
exactly, and the live counts stay inside the `usize` domain. -/
lemma runQ_counters_eq_live (t : List Ev) :
    ∀ (q : Queue) (l : Nat × Nat), q.senders = l.1 → q.receivers = l.2 →
      l.1 < USIZE → l.2 < USIZE → validFrom l t = true →
      (runQ q t).senders = (runLive l t).1 ∧ (runQ q t).receivers = (runLive l t).2
      ∧ (runLive l t).1 < USIZE ∧ (runLive l t).2 < USIZE := by
  induction t with
  | nil =>
    intro q l hs hr h1 h2 _
    exact ⟨hs, hr, h1, h2⟩
  | cons e t ih =>
    intro q l hs hr h1 h2 hv
    simp only [validFrom, Bool.and_eq_true] at hv
    obtain ⟨hok, hrest⟩ := hv
    cases e with
    | cloneS =>
      rw [okEv, decide_eq_true_eq] at hok
      refine ih (stepQ q Ev.cloneS) (stepLive l Ev.cloneS) ?_ ?_ ?_ ?_ hrest
      · simp [stepQ, stepLive, Sender.newQ, hs, wrapAdd1_lt l.1 hok.2]
      · simp [stepQ, stepLive, Sender.newQ, hr]
      · simpa [stepLive] using hok.2
      · simpa [stepLive] using h2
    | dropS =>
      rw [okEv, decide_eq_true_eq] at hok
      refine ih (stepQ q Ev.dropS) (stepLive l Ev.dropS) ?_ ?_ ?_ ?_ hrest
      · simp [stepQ, stepLive, Sender.dropQ, hs, wrapSub1_pos l.1 hok]
      · simp [stepQ, stepLive, Sender.dropQ, hr]
      · simp only [stepLive]
        omega
      · simpa [stepLive] using h2
    | cloneR =>
      rw [okEv, decide_eq_true_eq] at hok
      refine ih (stepQ q Ev.cloneR) (stepLive l Ev.cloneR) ?_ ?_ ?_ ?_ hrest
      · simp [stepQ, stepLive, Receiver.newQ, hs]
      · simp [stepQ, stepLive, Receiver.newQ, hr, wrapAdd1_lt l.2 hok.2]
      · simpa [stepLive] using h1
      · simpa [stepLive] using hok.2
    | dropR =>
      rw [okEv, decide_eq_true_eq] at hok
      refine ih (stepQ q Ev.dropR) (stepLive l Ev.dropR) ?_ ?_ ?_ ?_ hrest
      · simp [stepQ, stepLive, Receiver.dropQ, hs]
      · simp [stepQ, stepLive, Receiver.dropQ, hr, wrapSub1_pos l.2 hok]
      · simpa [stepLive] using h1
      · simp only [stepLive]
        omega

/-- Once no live sender handle remains, no later well-formed event can
recreate one: the live sender count stays zero. -/
lemma live_senders_zero_persists (t : List Ev) :
    ∀ l : Nat × Nat, validFrom l t = true → l.1 = 0 → (runLive l t).1 = 0 := by
  induction t with
  | nil => intro l _ h0; exact h0
  | cons e t ih =>
    intro l hv h0
    simp only [validFrom, Bool.and_eq_true] at hv
    obtain ⟨hok, hrest⟩ := hv
    cases e with
    | cloneS =>
      rw [okEv, decide_eq_true_eq] at hok
      exact absurd h0 (by omega)
    | dropS =>
      rw [okEv, decide_eq_true_eq] at hok
      exact absurd h0 (by omega)
    | cloneR => exact ih (stepLive l Ev.cloneR) hrest (by simpa [stepLive] using h0)
    | dropR => exact ih (stepLive l Ev.dropR) hrest (by simpa [stepLive] using h0)

/-- Symmetric to `live_senders_zero_persists` for receivers. -/
lemma live_receivers_zero_persists (t : List Ev) :
    ∀ l : Nat × Nat, validFrom l t = true → l.2 = 0 → (runLive l t).2 = 0 := by
  induction t with
  | nil => intro l _ h0; exact h0
  | cons e t ih =>
    intro l hv h0
    simp only [validFrom, Bool.and_eq_true] at hv
    obtain ⟨hok, hrest⟩ := hv
    cases e with
    | cloneR =>
      rw [okEv, decide_eq_true_eq] at hok
      exact absurd h0 (by omega)
    | dropR =>
      rw [okEv, decide_eq_true_eq] at hok
      exact absurd h0 (by omega)
    | cloneS => exact ih (stepLive l Ev.cloneS) hrest (by simpa [stepLive] using h0)
    | dropS => exact ih (stepLive l Ev.dropS) hrest (by simpa [stepLive] using h0)

/-- The number of sender-side `close()` calls along a well-formed trace is one
exactly when the trace takes the live sender count from nonzero to zero, and
zero otherwise. -/
lemma senderCloses_eq (t : List Ev) :
    ∀ (q : Queue) (l : Nat × Nat), q.senders = l.1 → l.1 < USIZE →
      validFrom l t = true →
      senderCloses q t = if l.1 ≠ 0 ∧ (runLive l t).1 = 0 then 1 else 0 := by
  induction t with
  | nil =>
    intro q l _ _ _
    simp only [senderCloses, runLive]
    rw [if_neg (by omega)]
  | cons e t ih =>
    intro q l hs h1 hv
    simp only [validFrom, Bool.and_eq_true] at hv
    obtain ⟨hok, hrest⟩ := hv
    cases e with
    | cloneS =>
      rw [okEv, decide_eq_true_eq] at hok
      have hrec := ih (stepQ q Ev.cloneS) (stepLive l Ev.cloneS)
        (by simp [stepQ, stepLive, Sender.newQ, hs, wrapAdd1_lt l.1 hok.2])
        (by simpa [stepLive] using hok.2) hrest
      simp only [senderCloses, runLive, hrec, stepLive]
      have hc1 : l.1 + 1 ≠ 0 := by omega
      have hc2 : l.1 ≠ 0 := by omega
      simp [hc1, hc2]
    | dropS =>
      rw [okEv, decide_eq_true_eq] at hok
      have hrec := ih (stepQ q Ev.dropS) (stepLive l Ev.dropS)
        (by simp [stepQ, stepLive, Sender.dropQ, hs, wrapSub1_pos l.1 hok])
        (by simp only [stepLive]; omega) hrest
      simp only [senderCloses, runLive, hrec, stepLive, Sender.dropQ, hs]
      by_cases hone : l.1 = 1
      · have hfin : (runLive (l.1 - 1, l.2) t).1 = 0 :=
          live_senders_zero_persists t (stepLive l Ev.dropS) hrest (by simp [stepLive, hone])
        simp only [hone] at hfin ⊢
        have hfin0 : (runLive (0, l.2) t).1 = 0 := by simpa using hfin
        simp [hfin0]
      · have hbeq : (l.1 == 1) = false := by
          simp only [beq_eq_false_iff_ne, ne_eq]
          exact hone
        have hne : l.1 ≠ 0 := by omega
        have hne2 : l.1 - 1 ≠ 0 := by omega
        simp [hbeq, hne, hne2]
    | cloneR =>
      rw [okEv, decide_eq_true_eq] at hok
      have hrec := ih (stepQ q Ev.cloneR) (stepLive l Ev.cloneR)
        (by simp [stepQ, stepLive, Receiver.newQ, hs]) (by simpa [stepLive] using h1) hrest
      simp only [senderCloses, runLive, hrec, stepLive, Nat.zero_add]
    | dropR =>
      rw [okEv, decide_eq_true_eq] at hok
      have hrec := ih (stepQ q Ev.dropR) (stepLive l Ev.dropR)
        (by simp [stepQ, stepLive, Receiver.dropQ, hs]) (by simpa [stepLive] using h1) hrest
      simp only [senderCloses, runLive, hrec, stepLive, Nat.zero_add]

/-- Symmetric to `senderCloses_eq` for receiver-side `close()` calls. -/
lemma receiverCloses_eq (t : List Ev) :
    ∀ (q : Queue) (l : Nat × Nat), q.receivers = l.2 → l.2 < USIZE →
      validFrom l t = true →
      receiverCloses q t = if l.2 ≠ 0 ∧ (runLive l t).2 = 0 then 1 else 0 := by
  induction t with
  | nil =>
    intro q l _ _ _
    simp only [receiverCloses, runLive]
    rw [if_neg (by omega)]
  | cons e t ih =>
    intro q l hr h2 hv
    simp only [validFrom, Bool.and_eq_true] at hv
    obtain ⟨hok, hrest⟩ := hv
    cases e with
    | cloneR =>
      rw [okEv, decide_eq_true_eq] at hok
      have hrec := ih (stepQ q Ev.cloneR) (stepLive l Ev.cloneR)
        (by simp [stepQ, stepLive, Receiver.newQ, hr, wrapAdd1_lt l.2 hok.2])
        (by simpa [stepLive] using hok.2) hrest
      simp only [receiverCloses, runLive, hrec, stepLive]
      have hc1 : l.2 + 1 ≠ 0 := by omega
      have hc2 : l.2 ≠ 0 := by omega
      simp [hc1, hc2]
    | dropR =>
      rw [okEv, decide_eq_true_eq] at hok
      have hrec := ih (stepQ q Ev.dropR) (stepLive l Ev.dropR)
        (by simp [stepQ, stepLive, Receiver.dropQ, hr, wrapSub1_pos l.2 hok])
        (by simp only [stepLive]; omega) hrest
      simp only [receiverCloses, runLive, hrec, stepLive, Receiver.dropQ, hr]
      by_cases hone : l.2 = 1
      · have hfin : (runLive (l.1, l.2 - 1) t).2 = 0 :=
          live_receivers_zero_persists t (stepLive l Ev.dropR) hrest (by simp [stepLive, hone])
        simp only [hone] at hfin ⊢
        have hfin0 : (runLive (l.1, 0) t).2 = 0 := by simpa using hfin
        simp [hfin0]
      · have hbeq : (l.2 == 1) = false := by
          simp only [beq_eq_false_iff_ne, ne_eq]
          exact hone
        have hne : l.2 ≠ 0 := by omega
        have hne2 : l.2 - 1 ≠ 0 := by omega
        simp [hbeq, hne, hne2]
    | cloneS =>
      rw [okEv, decide_eq_true_eq] at hok
      have hrec := ih (stepQ q Ev.cloneS) (stepLive l Ev.cloneS)
        (by simp [stepQ, stepLive, Sender.newQ, hr]) (by simpa [stepLive] using h2) hrest
      simp only [receiverCloses, runLive, hrec, stepLive, Nat.zero_add]
    | dropS =>
      rw [okEv, decide_eq_true_eq] at hok
      have hrec := ih (stepQ q Ev.dropS) (stepLive l Ev.dropS)
        (by simp [stepQ, stepLive, Sender.dropQ, hr]) (by simpa [stepLive] using h2) hrest
      simp only [receiverCloses, runLive, hrec, stepLive, Nat.zero_add]

/-- C2: along any well-formed serialized history of clone/drop events on one
channel's handles, the stored sender (receiver) counter always equals the
number of currently-undropped `Sender` (`Receiver`) handles — in particular
the decrement never wraps below zero — and once a counter has reached zero it
stays zero, so each counter reaches zero at most once over the channel's life. -/
theorem counters_track_live_handles (q : Queue) (l : Nat × Nat) (a b : List Ev)
    (hs : q.senders = l.1) (hr : q.receivers = l.2)
    (h1 : l.1 < USIZE) (h2 : l.2 < USIZE)
    (hv : validFrom l (a ++ b) = true) :
    ((runQ q a).senders = (runLive l a).1 ∧ (runQ q a).receivers = (runLive l a).2)
    ∧ ((runQ q a).senders = 0 → (runQ q (a ++ b)).senders = 0)
    ∧ ((runQ q a).receivers = 0 → (runQ q (a ++ b)).receivers = 0) := by
  have hv2 := hv
  rw [validFrom_append a b l, Bool.and_eq_true] at hv2
  obtain ⟨hva, hvb⟩ := hv2
  obtain ⟨hsa, hra, hb1, hb2⟩ := runQ_counters_eq_live a q l hs hr h1 h2 hva
  have hall := runQ_counters_eq_live (a ++ b) q l hs hr h1 h2 hv
  refine ⟨⟨hsa, hra⟩, ?_, ?_⟩
  · intro h0
    have hl0 : (runLive l a).1 = 0 := by rw [← hsa]; exact h0
    have hz : (runLive l (a ++ b)).1 = 0 := by
      rw [runLive_append a b l]
      exact live_senders_zero_persists b (runLive l a) hvb hl0
    rw [hall.1, hz]
  · intro h0
    have hl0 : (runLive l a).2 = 0 := by rw [← hra]; exact h0
    have hz : (runLive l (a ++ b)).2 = 0 := by
      rw [runLive_append a b l]
      exact live_receivers_zero_persists b (runLive l a) hvb hl0
    rw [hall.2.1, hz]

theorem counters_track_live_handles_witness :
    (runQ unbounded [Ev.cloneS, Ev.dropS, Ev.dropS]).senders = 0 := by
  have h := (counters_track_live_handles unbounded (1, 1)
      [Ev.cloneS, Ev.dropS, Ev.dropS] [Ev.dropR]
      (by decide) (by decide) (by decide) (by decide) (by decide)).1.1
  rw [h]
  decide

/-- C6: along any well-formed serialized history of handle events (the SeqCst
counter updates execute in one total order), the total number of sender-side
`close()` calls is exactly one when the history takes the live sender count
from nonzero to zero and zero otherwise — the zero-crossing close is never
missed and never fired twice — and symmetrically for receiver-side closes. -/
theorem close_fires_exactly_once_per_class (q : Queue) (l : Nat × Nat) (t : List Ev)
    (hs : q.senders = l.1) (hr : q.receivers = l.2)
    (h1 : l.1 < USIZE) (h2 : l.2 < USIZE)
    (hv : validFrom l t = true) :
    senderCloses q t = (if l.1 ≠ 0 ∧ (runLive l t).1 = 0 then 1 else 0)
    ∧ receiverCloses q t = (if l.2 ≠ 0 ∧ (runLive l t).2 = 0 then 1 else 0) :=
  ⟨senderCloses_eq t q l hs h1 hv, receiverCloses_eq t q l hr h2 hv⟩

theorem close_fires_exactly_once_per_class_witness :
    senderCloses unbounded [Ev.cloneS, Ev.dropS, Ev.dropS] = 1 := by
  have h := (close_fires_exactly_once_per_class unbounded (1, 1)
      [Ev.cloneS, Ev.dropS, Ev.dropS]
      (by decide) (by decide) (by decide) (by decide) (by decide)).1
  rw [h]
  decide

end Crossbeam
